import Mathlib

/-!
Verification development for the benchmark sweep orchestrator
(`tools/benchmarking/benchmark.py`).

The file shallow-embeds the sweep logic: grid distribution over GPU lanes
(`distribute_over_gpus`, `distribute`), the per-run configuration merge and
dispatch (`sweepConfig`, `sweep`), the metrics-collection step
(`get_single_model_metrics`), the output-capture wrapper (`hide_output`),
and the job-await loop of the GPU pool (`await_gpu_jobs`).

External collaborators (config loading and merging, model and data
construction, training, throughput measurement, sinks) are passed in as
function parameters (`SweepEnv`); machine floats are abstracted into an
opaque value type `PVal` whose `nan` constructor models the
`float("nan")` not-available sentinel.
-/

/-- Abstract value stored in configurations and metric records.  Real values
are opaque here; `nan` models the `float("nan")` sentinel. -/
inductive PVal where
  | num : Int → PVal
  | str : String → PVal
  | nan : PVal
deriving DecidableEq, Repr

/-- Python dict lookup on an association list (first matching key). -/
def dictGet : List (String × PVal) → String → Option PVal
  | [], _ => none
  | kv :: rest, k => if kv.1 = k then some kv.2 else dictGet rest k

/-- Python dict assignment `d[k] = v`: overwrite the entry when the key is
present, append otherwise. -/
def dictSet : List (String × PVal) → String → PVal → List (String × PVal)
  | [], k, v => [(k, v)]
  | kv :: rest, k, v => if kv.1 = k then (k, v) :: rest else kv :: dictSet rest k v

/-- Lookup in the trainer section's extra keys (value `none` models a key set
to Python `None`). -/
def lookupExtra : List (String × Option PVal) → String → Option (Option PVal)
  | [], _ => none
  | kv :: rest, k => if kv.1 = k then some kv.2 else lookupExtra rest k

/-- Model of lines 272-274: `if legacy_device in model_config.trainer:
model_config.trainer[legacy_device] = None` — sets the key to null when it
is present and does not create it otherwise. -/
def setNullIfPresent : List (String × Option PVal) → String → List (String × Option PVal)
  | [], _ => []
  | kv :: rest, k => if kv.1 = k then (k, none) :: rest else kv :: setNullIfPresent rest k

/-- Trainer section of the merged model configuration: the fields the sweep
code touches (`accelerator`, `devices`), plus the remaining keys
(`num_processes`, `gpus`, `ipus`, `tpu_cores`, ...) as an association list. -/
structure TrainerConf where
  accelerator : Option String
  devices : Option (List Nat)
  extra : List (String × Option PVal)
deriving DecidableEq, Repr

/-- Merged model configuration: the fields read or written by
`tools/benchmarking/benchmark.py` (`project.seed`, `model.input_size`,
`trainer.*`); everything else is abstracted into `rest`. -/
structure ModelConf where
  projectSeed : Int
  inputSize : Nat × Nat
  trainer : TrainerConf
  rest : List (String × PVal)
deriving DecidableEq, Repr

/-- One concrete run configuration from the grid: the literal `model_name`
plus the remaining grid parameter assignments. -/
structure RunConfig where
  model_name : String
  params : List (String × PVal)
deriving DecidableEq, Repr

/-- Results produced by the external collaborators inside
`get_single_model_metrics` for one merged configuration: measured times,
throughputs and the scalar test metrics of `trainer.test`. -/
structure GsmData where
  trainingTime : PVal
  testingTime : PVal
  throughput : PVal
  openvinoThroughput : PVal
  testResults : List (String × PVal)
deriving DecidableEq, Repr

/-- External collaborators used by `sweep`: `get_configurable_parameters`,
the `set_in_nested_config` override step, `update_input_size_config`, and
the training/testing/throughput collaborators of
`get_single_model_metrics` (summarised as `gsmData`). -/
structure SweepEnv where
  getConfig : String → ModelConf
  applyOverride : ModelConf → String → PVal → ModelConf
  updateInputSize : ModelConf → ModelConf
  gsmData : ModelConf → GsmData

/-- The legacy single-purpose device-selection keys cleared by lines 271-274. -/
def legacyFlags : List String := ["num_processes", "gpus", "ipus", "tpu_cores"]

/-- Model families with a fixed canonical input resolution (line 276). -/
def fixedResolutionModels : List String := ["patchcore", "cflow"]

/-- Clearing loop of lines 271-274 over the trainer section. -/
def clearLegacy (t : TrainerConf) : TrainerConf :=
  ⟨t.accelerator, t.devices, legacyFlags.foldl setNullIfPresent t.extra⟩

/-- Lines 250-274 of `sweep`: fetch the base configuration for
`run_config.model_name`, set `project.seed`, apply every grid override
(`set_in_nested_config` over all keys of the run config, `model_name`
included), resolve the input size, set the accelerator and device index
(`0` is CPU; a positive id `k` is GPU index `k - 1`), and null out the
legacy device-selection keys. -/
def sweepConfig (env : SweepEnv) (rcfg : RunConfig) (device : Nat) (seed : Int) : ModelConf :=
  let mc0 := env.getConfig rcfg.model_name
  let mc1 : ModelConf := ⟨seed, mc0.inputSize, mc0.trainer, mc0.rest⟩
  let mc2 := (("model_name", PVal.str rcfg.model_name) :: rcfg.params).foldl
      (fun m kv => env.applyOverride m kv.1 kv.2) mc1
  let mc3 := env.updateInputSize mc2
  let mc4 : ModelConf :=
    if device ≠ 0 then
      ⟨mc3.projectSeed, mc3.inputSize,
        ⟨some "gpu", some [device - 1], mc3.trainer.extra⟩, mc3.rest⟩
    else
      ⟨mc3.projectSeed, mc3.inputSize,
        ⟨some "cpu", mc3.trainer.devices, mc3.trainer.extra⟩, mc3.rest⟩
  ⟨mc4.projectSeed, mc4.inputSize, clearLegacy mc4.trainer, mc4.rest⟩

/-- Line 277: for `patchcore` and `cflow` the `convert_openvino` flag is
forced to `False` (`torch.cdist` is not supported by onnx opset 11). -/
def sweepOpenvino (rcfg : RunConfig) (convert_openvino : Bool) : Bool :=
  if rcfg.model_name ∈ fixedResolutionModels then false else convert_openvino

/-- Lines 97-147, `get_single_model_metrics`: assemble the metrics dict from
the measured quantities; the OpenVINO throughput entry is the computed
figure when `openvino_metrics` is set and the `float("nan")` sentinel
otherwise; the scalar test results are then inserted one by one. -/
def get_single_model_metrics (gd : GsmData) (openvino_metrics : Bool) : List (String × PVal) :=
  gd.testResults.foldl (fun acc kv => dictSet acc kv.1 kv.2)
    [("Training Time (s)", gd.trainingTime),
     ("Testing Time (s)", gd.testingTime),
     ("Inference Throughput (fps)", gd.throughput),
     ("OpenVINO Inference Throughput (fps)",
       if openvino_metrics then gd.openvinoThroughput else PVal.nan)]

/-- Step of lines 290-293: append a grid parameter to the metrics dict,
skipping the `model_name` key. -/
def addGridParam (acc : List (String × PVal)) (kv : String × PVal) : List (String × PVal) :=
  if kv.1 = "model_name" then acc else dictSet acc kv.1 kv.2

/-- Lines 237-299, `sweep`: merge the configuration, force the OpenVINO flag
for fixed-resolution families, skip the run (returning the empty record)
when such a family resolved to a non-canonical input size, otherwise run
`get_single_model_metrics` and append the grid parameters, the device label
and the model name to the record. -/
def sweep (env : SweepEnv) (rcfg : RunConfig) (device : Nat) (seed : Int)
    (convert_openvino : Bool) : List (String × PVal) :=
  if rcfg.model_name ∈ fixedResolutionModels ∧
      (sweepConfig env rcfg device seed).inputSize ≠ (224, 224) then []
  else
    dictSet
      (dictSet
        ((("model_name", PVal.str rcfg.model_name) :: rcfg.params).foldl addGridParam
          (get_single_model_metrics (env.gsmData (sweepConfig env rcfg device seed))
            (sweepOpenvino rcfg convert_openvino)))
        "device" (PVal.str (if device > 0 then "gpu" else "cpu")))
      "model_name" (PVal.str rcfg.model_name)

/-- Lines 150-155, `compute_on_cpu`: execute every generated run
configuration on device id `0` with OpenVINO measurement off, forwarding
each record to the writers; the function returns the records in order. -/
def compute_on_cpu (env : SweepEnv) (runConfigs : List RunConfig) (seed : Int) :
    List (List (String × PVal)) :=
  runConfigs.map fun rcfg => sweep env rcfg 0 seed false

/-- Integer value of `math.ceil(total / deviceCount)` (line 191). -/
def gpuChunk (total deviceCount : Nat) : Nat := (total + deviceCount - 1) / deviceCount

/-- Lines 183-202, `distribute_over_gpus`, lane construction: with
`chunk = ceil(len / device_count)`, job `i` (enumerating
`range(0, len, chunk)`, so `i` ranges over `ceil(len / chunk)` values) is
given device id `i + 1` and the slice `run_configs[i*chunk : (i+1)*chunk]`.
When `chunk = 0` (no configurations, or no workers for the pool) Python
raises (`range` step zero / `ProcessPoolExecutor` with zero workers),
modelled as `none`. -/
def distribute_over_gpus {α : Type} (deviceCount : Nat) (runConfigs : List α) :
    Option (List (Nat × List α)) :=
  if gpuChunk runConfigs.length deviceCount = 0 then none
  else
    some ((List.range (gpuChunk runConfigs.length (gpuChunk runConfigs.length deviceCount))).map
      (fun i => (i + 1,
        (runConfigs.drop (i * gpuChunk runConfigs.length deviceCount)).take
          (gpuChunk runConfigs.length deviceCount))))

/-- Lines 203-207 of `distribute_over_gpus`: jobs are awaited in launch
order; the first job whose result is an error has that error re-raised
wrapped with the job's identity, and no later job is awaited. -/
def await_gpu_jobs {ε : Type} : List (Nat × Except ε Unit) → Except (Nat × ε) Unit
  | [] => Except.ok ()
  | (_, Except.ok _) :: rest => await_gpu_jobs rest
  | (jid, Except.error exp) :: _ => Except.error (jid, exp)

/-- Outcome of one `distribute` invocation: the device lanes that were
scheduled (device id `0` is the CPU lane, positive ids are GPU lanes, each
paired with its assigned subsequence), whether the missing-CUDA warning was
emitted, and whether the final wandb upload ran. -/
structure DistOutcome (α : Type) where
  lanes : List (Nat × List α)
  warned : Bool
  uploaded : Bool
deriving DecidableEq, Repr

/-- Lines 210-234, `distribute`: when CUDA is unavailable but `gpu` was
requested, only a warning is emitted (no lane at all, the CPU lane
included); when both `cpu` and `gpu` are requested, the CPU lane receives
the full configuration list and the GPU lanes are built by
`distribute_over_gpus` over the same full list; single-target requests
schedule just the corresponding lanes; the wandb upload runs whenever the
`wandb` writer is configured and no scheduling error propagated. -/
def distribute {α : Type} (hardware writers : List String) (cudaAvailable : Bool)
    (deviceCount : Nat) (runConfigs : List α) : Option (DistOutcome α) :=
  if cudaAvailable = false ∧ "gpu" ∈ hardware then
    some ⟨[], true, decide ("wandb" ∈ writers)⟩
  else if "cpu" ∈ hardware ∧ "gpu" ∈ hardware then
    (distribute_over_gpus deviceCount runConfigs).map
      (fun g => ⟨(0, runConfigs) :: g, false, decide ("wandb" ∈ writers)⟩)
  else if "cpu" ∈ hardware then
    some ⟨[(0, runConfigs)], false, decide ("wandb" ∈ writers)⟩
  else if "gpu" ∈ hardware then
    (distribute_over_gpus deviceCount runConfigs).map
      (fun g => ⟨g, false, decide ("wandb" ∈ writers)⟩)
  else
    some ⟨[], false, decide ("wandb" ∈ writers)⟩

/-- Identity of a process-wide output sink: either some pre-existing sink
(numbered), or the in-memory `StringIO` buffer created by `hide_output`,
holding the lines written into it. -/
inductive StdoutSink where
  | sink : Nat → StdoutSink
  | buffer : List String → StdoutSink
deriving DecidableEq, Repr

/-- Error raised by the `hide_output` wrapper: `Exception(buf.getvalue())`
chained `from` the original cause. -/
structure WrappedError (ε : Type) where
  message : List String
  cause : ε
deriving DecidableEq, Repr

/-- State after the `hide_output` scope exits: the sink `sys.stdout` is then
bound to, and the wrapped call's outcome. -/
structure CaptureOutcome (ε α : Type) where
  finalStdout : StdoutSink
  result : Except (WrappedError ε) α

/-- Lines 59-83, `hide_output`: `std_out = sys.stdout; sys.stdout = buf`;
the wrapped call's prints (`emitted`) go into the buffer; on normal return
`sys.stdout = std_out` is restored and the value returned; on an exception
`Exception(buf.getvalue())` is raised chained from the cause — the
assignment restoring `sys.stdout` is after the `try` block and is never
reached on that path, so `sys.stdout` stays bound to the buffer. -/
def hide_output {ε α : Type} (emitted : List String) (res : Except ε α)
    (std_out : StdoutSink) : CaptureOutcome ε α :=
  match res with
  | Except.ok v => ⟨std_out, Except.ok v⟩
  | Except.error exp => ⟨StdoutSink.buffer emitted, Except.error ⟨emitted, exp⟩⟩

/-- The metric key holding exported-runtime throughput. -/
def ovKey : String := "OpenVINO Inference Throughput (fps)"

/-- Concrete collaborator data used by witness instances. -/
def gd0 : GsmData := ⟨PVal.num 1, PVal.num 2, PVal.num 3, PVal.num 4, [("image_AUROC", PVal.num 9)]⟩

/-- Concrete base configuration with the canonical input resolution. -/
def baseConf : ModelConf :=
  ⟨0, (224, 224), ⟨none, none, [("gpus", some (PVal.num 1)), ("num_processes", some (PVal.num 4))]⟩, []⟩

/-- Concrete base configuration with a non-canonical input resolution. -/
def baseConfBig : ModelConf :=
  ⟨0, (256, 256), ⟨none, none, [("gpus", some (PVal.num 1))]⟩, []⟩

/-- Concrete environment (identity collaborators) used by witness instances. -/
def env0 : SweepEnv := ⟨fun _ => baseConf, fun m _ _ => m, fun m => m, fun _ => gd0⟩

/-- Concrete environment whose base configuration resolves to `(256, 256)`. -/
def env1 : SweepEnv := ⟨fun _ => baseConfBig, fun m _ _ => m, fun m => m, fun _ => gd0⟩

/-- Concrete run configuration with one ordinary grid parameter. -/
def rcA : RunConfig := ⟨"padim", [("model.lr", PVal.num 3)]⟩

/-- Concrete run configuration whose grid parameter collides with the
reserved `device` record key. -/
def rcDev : RunConfig := ⟨"padim", [("device", PVal.num 5)]⟩

/-- Dict assignment then lookup of the same key yields the new value. -/
theorem dictGet_dictSet_self (d : List (String × PVal)) (k : String) (v : PVal) :
    dictGet (dictSet d k v) k = some v := by
  induction d with
  | nil => simp [dictSet, dictGet]
  | cons kv rest ih =>
    by_cases h : kv.1 = k
    · simp [dictSet, dictGet, h]
    · simp [dictSet, dictGet, h, ih]

/-- Dict assignment leaves lookups of other keys unchanged. -/
theorem dictGet_dictSet_ne (d : List (String × PVal)) (k k' : String) (v : PVal)
    (h : k' ≠ k) : dictGet (dictSet d k v) k' = dictGet d k' := by
  induction d with
  | nil => simp [dictSet, dictGet, Ne.symm h]
  | cons kv rest ih =>
    by_cases h1 : kv.1 = k
    · simp [dictSet, dictGet, h1, Ne.symm h]
    · by_cases h2 : kv.1 = k'
      · simp [dictSet, dictGet, h1, h2, h]
      · simp [dictSet, dictGet, h1, h2, ih]

/-- Inserting entries none of which carries key `k` leaves the lookup of `k`
unchanged. -/
theorem dictGet_foldl_dictSet_of_not_mem (ps : List (String × PVal))
    (d : List (String × PVal)) (k : String) (h : ∀ kv ∈ ps, kv.1 ≠ k) :
    dictGet (ps.foldl (fun acc kv => dictSet acc kv.1 kv.2) d) k = dictGet d k := by
  induction ps generalizing d with
  | nil => rfl
  | cons p rest ih =>
    rw [List.foldl_cons, ih _ (fun kv hkv => h kv (List.mem_cons_of_mem p hkv))]
    exact dictGet_dictSet_ne d p.1 k p.2 (Ne.symm (h p (List.mem_cons_self p rest)))

/-- The grid-parameter append loop leaves keys it never touches unchanged. -/
theorem addGridParam_foldl_not_mem (ps : List (String × PVal))
    (d : List (String × PVal)) (k : String) (h : ∀ kv ∈ ps, kv.1 ≠ k) :
    dictGet (ps.foldl addGridParam d) k = dictGet d k := by
  induction ps generalizing d with
  | nil => rfl
  | cons p rest ih =>
    rw [List.foldl_cons, ih _ (fun kv hkv => h kv (List.mem_cons_of_mem p hkv))]
    unfold addGridParam
    by_cases hm : p.1 = "model_name"
    · rw [if_pos hm]
    · rw [if_neg hm]
      exact dictGet_dictSet_ne d p.1 k p.2 (Ne.symm (h p (List.mem_cons_self p rest)))

/-- After the grid-parameter append loop, a grid key with unique occurrence
(and distinct from `model_name`) looks up to its grid value. -/
theorem addGridParam_foldl_mem (k : String) (v : PVal) (hk : k ≠ "model_name") :
    ∀ (ps d : List (String × PVal)), (ps.map Prod.fst).Nodup → (k, v) ∈ ps →
      dictGet (ps.foldl addGridParam d) k = some v := by
  intro ps
  induction ps with
  | nil => intro d _ hmem; cases hmem
  | cons p rest ih =>
    intro d hnd hmem
    rw [List.map_cons, List.nodup_cons] at hnd
    rcases List.mem_cons.mp hmem with heq | hrest
    · rw [List.foldl_cons]
      have hknot : ∀ kv ∈ rest, kv.1 ≠ k := by
        intro kv hkv hcon
        apply hnd.1
        have h7 : kv.1 ∈ rest.map Prod.fst := List.mem_map_of_mem Prod.fst hkv
        rw [hcon] at h7
        rw [← heq]
        exact h7
      rw [addGridParam_foldl_not_mem rest _ k hknot, ← heq]
      unfold addGridParam
      rw [if_neg hk]
      exact dictGet_dictSet_self d k v
    · rw [List.foldl_cons]
      exact ih (addGridParam d p) hnd.2 hrest

/-- Nulling a key then looking it up yields nothing or null. -/
theorem lookupExtra_setNull_self (e : List (String × Option PVal)) (k : String) :
    lookupExtra (setNullIfPresent e k) k = none ∨
    lookupExtra (setNullIfPresent e k) k = some none := by
  induction e with
  | nil => left; rfl
  | cons kv rest ih =>
    by_cases h : kv.1 = k
    · right; simp [setNullIfPresent, lookupExtra, h]
    · simpa [setNullIfPresent, lookupExtra, h] using ih

/-- Nulling any key preserves the nothing-or-null status of a key. -/
theorem lookupExtra_setNull_preserve (k k' : String) :
    ∀ e : List (String × Option PVal),
      (lookupExtra e k = none ∨ lookupExtra e k = some none) →
      (lookupExtra (setNullIfPresent e k') k = none ∨
       lookupExtra (setNullIfPresent e k') k = some none) := by
  intro e
  induction e with
  | nil => intro h; exact h
  | cons kv rest ih =>
    intro h
    by_cases h1 : kv.1 = k'
    · by_cases h2 : k' = k
      · right; simp [setNullIfPresent, lookupExtra, h1, h2]
      · have hr : lookupExtra rest k = none ∨ lookupExtra rest k = some none := by
          have h4 : kv.1 ≠ k := by rw [h1]; exact h2
          simpa [lookupExtra, h4] using h
        simpa [setNullIfPresent, lookupExtra, h1, h2] using hr
    · by_cases h3 : kv.1 = k
      · have h5 : kv.2 = none := by simpa [lookupExtra, h3] using h
        have h6 : ¬k = k' := h3 ▸ h1
        right
        simp [setNullIfPresent, lookupExtra, h1, h3, h5, h6]
      · have hr : lookupExtra rest k = none ∨ lookupExtra rest k = some none := by
          simpa [lookupExtra, h3] using h
        simpa [setNullIfPresent, lookupExtra, h1, h3] using ih hr

/-- Folding the clearing step preserves the nothing-or-null status of a key. -/
theorem lookupExtra_foldl_preserve (k : String) :
    ∀ (ks : List String) (e : List (String × Option PVal)),
      (lookupExtra e k = none ∨ lookupExtra e k = some none) →
      (lookupExtra (ks.foldl setNullIfPresent e) k = none ∨
       lookupExtra (ks.foldl setNullIfPresent e) k = some none) := by
  intro ks
  induction ks with
  | nil => intro e h; exact h
  | cons k1 tl ih =>
    intro e h
    rw [List.foldl_cons]
    exact ih _ (lookupExtra_setNull_preserve k k1 e h)

/-- After folding the clearing step over a list of keys, every key of the
list looks up to nothing or null. -/
theorem lookupExtra_foldl_setNull (k : String) :
    ∀ (ks : List String) (e : List (String × Option PVal)), k ∈ ks →
      (lookupExtra (ks.foldl setNullIfPresent e) k = none ∨
       lookupExtra (ks.foldl setNullIfPresent e) k = some none) := by
  intro ks
  induction ks with
  | nil => intro e hk; cases hk
  | cons k0 rest ih =>
    intro e hk
    rw [List.foldl_cons]
    rcases List.mem_cons.mp hk with heq | hrest
    · subst heq
      exact lookupExtra_foldl_preserve k rest _ (lookupExtra_setNull_self e k)
    · exact ih (setNullIfPresent e k0) hrest

/-- Ceiling division of zero is zero. -/
theorem gpuChunk_zero (c : Nat) : gpuChunk 0 c = 0 := by
  unfold gpuChunk
  rcases Nat.eq_zero_or_pos c with h | h
  · simp [h]
  · exact Nat.div_eq_of_lt (by omega)

/-- Ceiling division is positive on positive input. -/
theorem gpuChunk_pos (L c : Nat) (hc : 0 < c) (hL : 0 < L) : 0 < gpuChunk L c := by
  unfold gpuChunk
  exact Nat.div_pos (by omega) hc

/-- Recursion step of ceiling division: one chunk plus the chunks of what
remains. -/
theorem gpuChunk_succ (c L : Nat) (hc : 0 < c) (hL : 0 < L) :
    gpuChunk L c = gpuChunk (L - c) c + 1 := by
  unfold gpuChunk
  rcases Nat.le_total c L with h | h
  · have h1 : L + c - 1 = ((L - c) + c - 1) + c := by omega
    rw [h1, Nat.add_div_right _ hc]
  · have h2 : L - c = 0 := by omega
    have h3 : L + c - 1 = (L - 1) + c := by omega
    rw [h2, h3, Nat.add_div_right _ hc, Nat.div_eq_of_lt (by omega),
      Nat.div_eq_of_lt (by omega)]

/-- Ceiling division is bounded by any sufficient multiple. -/
theorem gpuChunk_le_of_le_mul (L m c : Nat) (hc : 0 < c) (h : L ≤ m * c) :
    gpuChunk L c ≤ m := by
  unfold gpuChunk
  calc (L + c - 1) / c ≤ ((c - 1) + m * c) / c := Nat.div_le_div_right (by omega)
    _ = (c - 1) / c + m := Nat.add_mul_div_right _ _ hc
    _ = m := by rw [Nat.div_eq_of_lt (by omega)]; omega

/-- The ceiling multiple covers the dividend. -/
theorem le_mul_gpuChunk (L d : Nat) (hd : 0 < d) : L ≤ d * gpuChunk L d := by
  unfold gpuChunk
  have h1 := Nat.div_add_mod (L + d - 1) d
  have h2 : (L + d - 1) % d < d := Nat.mod_lt _ hd
  omega

/-- All chunks but the last are full: the second-to-last chunk boundary is
strictly inside the list. -/
theorem gpuChunk_pred_mul_lt (L c : Nat) (hc : 0 < c) (hL : 0 < L) :
    (gpuChunk L c - 1) * c < L := by
  by_contra hcon
  push_neg at hcon
  have hk := gpuChunk_pos L c hc hL
  have := gpuChunk_le_of_le_mul L (gpuChunk L c - 1) c hc (by omega)
  omega

/-- Concatenating the ceiling-division chunks of a list reproduces the list:
the core no-duplication, no-omission fact behind `distribute_over_gpus`. -/
theorem chunks_join_aux {α : Type} (c : Nat) (hc : 0 < c) :
    ∀ (k : Nat) (l : List α), gpuChunk l.length c = k →
      ((List.range k).map (fun i => (l.drop (i * c)).take c)).flatten = l := by
  intro k
  induction k with
  | zero =>
    intro l hl
    have h0 : l.length = 0 := by
      by_contra h
      have hL : 0 < l.length := Nat.pos_of_ne_zero h
      have := gpuChunk_succ c l.length hc hL
      omega
    rw [List.eq_nil_of_length_eq_zero h0]
    rfl
  | succ k ih =>
    intro l hl
    have hL : 0 < l.length := by
      by_contra h
      push_neg at h
      have h0 : l.length = 0 := by omega
      rw [h0, gpuChunk_zero] at hl
      omega
    have hstep := gpuChunk_succ c l.length hc hL
    have hk : gpuChunk (l.drop c).length c = k := by
      rw [List.length_drop]
      omega
    rw [List.range_succ_eq_map, List.map_cons, List.map_map, List.flatten_cons]
    have h2 : ((List.range k).map ((fun i => (l.drop (i * c)).take c) ∘ Nat.succ)).flatten
        = ((List.range k).map (fun i => ((l.drop c).drop (i * c)).take c)).flatten := by
      congr 1
      apply List.map_congr_left
      intro i _
      simp only [Function.comp]
      rw [List.drop_drop, Nat.succ_mul, Nat.add_comm]
    rw [h2, ih (l.drop c) hk]
    simp

/-- Concrete value of `distribute_over_gpus` on a positive device count and a
non-empty configuration list. -/
theorem distribute_over_gpus_eq {α : Type} (d : Nat) (rc : List α) (hd : 0 < d)
    (hne : rc ≠ []) :
    distribute_over_gpus d rc =
      some ((List.range (gpuChunk rc.length (gpuChunk rc.length d))).map
        (fun i => (i + 1,
          (rc.drop (i * gpuChunk rc.length d)).take (gpuChunk rc.length d)))) := by
  have hL : 0 < rc.length := List.length_pos.mpr hne
  have hc : 0 < gpuChunk rc.length d := gpuChunk_pos _ _ hd hL
  unfold distribute_over_gpus
  rw [if_neg (by omega)]

/-- The GPU lanes exist and their concatenation reproduces the input. -/
theorem distribute_over_gpus_flatten {α : Type} (d : Nat) (rc : List α) (hd : 0 < d)
    (hne : rc ≠ []) :
    ∃ lanes, distribute_over_gpus d rc = some lanes ∧
      (lanes.map Prod.snd).flatten = rc := by
  have hL : 0 < rc.length := List.length_pos.mpr hne
  have hc : 0 < gpuChunk rc.length d := gpuChunk_pos _ _ hd hL
  refine ⟨_, distribute_over_gpus_eq d rc hd hne, ?_⟩
  rw [List.map_map]
  exact chunks_join_aux (gpuChunk rc.length d) hc _ rc rfl

/-- Claim C3, counterexample: with 4 devices and 5 RunConfigs the chunk size
is `ceil(5 / 4) = 2` and only 3 lanes are created, not 4; with 4 devices and
10 RunConfigs the slice sizes are `[3, 3, 3, 1]`, which differ by more
than 1. -/
theorem gpu_distribution_cex :
    distribute_over_gpus 4 ([0, 1, 2, 3, 4] : List Nat)
        = some [(1, [0, 1]), (2, [2, 3]), (3, [4])] ∧
    (3 : Nat) ≠ 4 ∧
    (distribute_over_gpus 4 (List.range 10)).map
        (fun lanes => lanes.map (fun ln => ln.2.length)) = some [3, 3, 3, 1] := by
  decide

/-- Claim C3, amended: for every non-empty RunConfig list and GPU count
`d > 0`, GPU-only distribution with chunk size `c = ceil(total / d)` creates
`ceil(total / c)` lanes (at most `d`, possibly fewer), device ids `1..k` in
order; every lane is non-empty with at most `c` configurations, every lane
but the last has exactly `c`, and the concatenation in device order
reproduces the original sequence with no duplication and no omission. -/
theorem gpu_distribution_amended {α : Type} (d : Nat) (rc : List α) (hd : 0 < d)
    (hne : rc ≠ []) :
    ∃ lanes : List (Nat × List α),
      distribute_over_gpus d rc = some lanes ∧
      lanes.length = gpuChunk rc.length (gpuChunk rc.length d) ∧
      lanes.length ≤ d ∧
      lanes.map Prod.fst = (List.range lanes.length).map (fun i => i + 1) ∧
      (∀ lane ∈ lanes, 0 < lane.2.length ∧ lane.2.length ≤ gpuChunk rc.length d) ∧
      (∀ i lane, i + 1 < lanes.length → lanes[i]? = some lane →
        lane.2.length = gpuChunk rc.length d) ∧
      (lanes.map Prod.snd).flatten = rc := by
  have hL : 0 < rc.length := List.length_pos.mpr hne
  have hc : 0 < gpuChunk rc.length d := gpuChunk_pos _ _ hd hL
  have hcov : rc.length ≤ d * gpuChunk rc.length d := le_mul_gpuChunk _ _ hd
  have hlast : (gpuChunk rc.length (gpuChunk rc.length d) - 1) * gpuChunk rc.length d
      < rc.length := gpuChunk_pred_mul_lt _ _ hc hL
  refine ⟨_, distribute_over_gpus_eq d rc hd hne, ?_, ?_, ?_, ?_, ?_, ?_⟩
  · simp
  · simp only [List.length_map, List.length_range]
    exact gpuChunk_le_of_le_mul _ _ _ hc hcov
  · simp only [List.map_map, List.length_map, List.length_range]
    rfl
  · intro lane hl
    simp only [List.mem_map, List.mem_range] at hl
    obtain ⟨i, hi, rfl⟩ := hl
    have h1 : i * gpuChunk rc.length d
        ≤ (gpuChunk rc.length (gpuChunk rc.length d) - 1) * gpuChunk rc.length d :=
      Nat.mul_le_mul_right _ (by omega)
    simp only [List.length_take, List.length_drop]
    omega
  · intro i lane hi hlane
    simp only [List.length_map, List.length_range] at hi
    rw [List.getElem?_map, List.getElem?_range (by omega)] at hlane
    simp only [Option.map_some'] at hlane
    have h1 : (i + 1) * gpuChunk rc.length d
        ≤ (gpuChunk rc.length (gpuChunk rc.length d) - 1) * gpuChunk rc.length d :=
      Nat.mul_le_mul_right _ (by omega)
    have h2 : (i + 1) * gpuChunk rc.length d = i * gpuChunk rc.length d + gpuChunk rc.length d := by
      rw [Nat.succ_mul]
    have h3 := Option.some.inj hlane
    rw [← h3]
    simp only [List.length_take, List.length_drop]
    omega
  · rw [List.map_map]
    exact chunks_join_aux (gpuChunk rc.length d) hc _ rc rfl

/-- Claim C3, witness for the amended theorem: the spec's own example, 7
RunConfigs over 3 devices, creates 3 lanes with sizes `[3, 3, 1]` whose
concatenation is the original list. -/
theorem gpu_distribution_amended_witness :
    (distribute_over_gpus 3 ([0, 1, 2, 3, 4, 5, 6] : List Nat)).map List.length = some 3 ∧
    (distribute_over_gpus 3 ([0, 1, 2, 3, 4, 5, 6] : List Nat)).map
        (fun lanes => lanes.map (fun ln => ln.2.length)) = some [3, 3, 1] ∧
    (distribute_over_gpus 3 ([0, 1, 2, 3, 4, 5, 6] : List Nat)).map
        (fun lanes => (lanes.map Prod.snd).flatten) = some [0, 1, 2, 3, 4, 5, 6] := by
  obtain ⟨lanes, h1, hlen, _, _, _, _, hflat⟩ :=
    gpu_distribution_amended 3 ([0, 1, 2, 3, 4, 5, 6] : List Nat) (by decide) (by decide)
  rw [h1]
  refine ⟨?_, ?_, ?_⟩
  · simp only [Option.map_some']
    rw [hlen]
    decide
  · have h2 : distribute_over_gpus 3 ([0, 1, 2, 3, 4, 5, 6] : List Nat)
        = some [(1, [0, 1, 2]), (2, [3, 4, 5]), (3, [6])] := by decide
    rw [h2] at h1
    have h3 := Option.some.inj h1
    rw [← h3]
    decide
  · simp only [Option.map_some']
    rw [hflat]

/-- Claim C1, counterexample: with `hardware = {"cpu", "gpu"}` and CUDA
available, the CPU lane receives the full generated list and the GPU lane
receives it again, so the concatenation of all lanes is not a permutation
of the generated set — RunConfigs are assigned to more than one lane. -/
theorem lane_assignment_cex :
    (distribute ["cpu", "gpu"] [] true 1 ([10, 20] : List Nat)).map
        (fun o => o.lanes) = some [(0, [10, 20]), (1, [10, 20])] ∧
    ¬ (([(0, [10, 20]), (1, [10, 20])].map
        (fun ln : Nat × List Nat => ln.2)).flatten).Perm [10, 20] := by
  decide

/-- Claim C1, amended: for a non-empty generated list and a positive device
count, the concatenation of all scheduled lanes is empty when gpu is
requested without CUDA, is the full generated set once for a single
hardware target, and is the full set twice (once for the CPU lane, once
across the GPU lanes, which partition it) when both cpu and gpu are
requested with CUDA available. -/
theorem lane_assignment_amended {α : Type} (hw wr : List String) (cuda : Bool) (d : Nat)
    (rc : List α) (hne : rc ≠ []) (hd : 0 < d) :
    ∃ o : DistOutcome α, distribute hw wr cuda d rc = some o ∧
      (o.lanes.map Prod.snd).flatten
        = (if cuda = false ∧ "gpu" ∈ hw then ([] : List α)
           else (if "cpu" ∈ hw then rc else []) ++ (if "gpu" ∈ hw then rc else [])) := by
  obtain ⟨gl, hgl, hflat⟩ := distribute_over_gpus_flatten d rc hd hne
  by_cases hgpu : "gpu" ∈ hw
  · cases cuda
    · exact ⟨⟨[], true, decide ("wandb" ∈ wr)⟩, by simp [distribute, hgpu], by simp [hgpu]⟩
    · by_cases hcpu : "cpu" ∈ hw
      · refine ⟨⟨(0, rc) :: gl, false, decide ("wandb" ∈ wr)⟩, ?_, ?_⟩
        · simp [distribute, hgpu, hcpu, hgl]
        · simp [hgpu, hcpu, hflat]
      · refine ⟨⟨gl, false, decide ("wandb" ∈ wr)⟩, ?_, ?_⟩
        · simp [distribute, hgpu, hcpu, hgl]
        · simp [hgpu, hcpu, hflat]
  · by_cases hcpu : "cpu" ∈ hw
    · refine ⟨⟨[(0, rc)], false, decide ("wandb" ∈ wr)⟩, ?_, ?_⟩
      · simp [distribute, hgpu, hcpu]
      · simp [hgpu, hcpu]
    · refine ⟨⟨[], false, decide ("wandb" ∈ wr)⟩, ?_, ?_⟩
      · simp [distribute, hgpu, hcpu]
      · simp [hgpu, hcpu]

/-- Claim C1, witness for the amended theorem: both hardware targets with
CUDA and 2 devices over 3 RunConfigs yield lanes whose concatenation is the
generated list twice. -/
theorem lane_assignment_amended_witness :
    (distribute ["cpu", "gpu"] [] true 2 ([3, 4, 5] : List Nat)).map
        (fun o => (o.lanes.map Prod.snd).flatten) = some [3, 4, 5, 3, 4, 5] := by
  obtain ⟨o, h1, h2⟩ :=
    lane_assignment_amended ["cpu", "gpu"] [] true 2 ([3, 4, 5] : List Nat)
      (by decide) (by decide)
  rw [h1]
  simp only [Option.map_some']
  rw [h2]
  decide

/-- Claim C9: when the hardware set contains both `cpu` and `gpu` but CUDA
is unavailable, `distribute` schedules no lane at all (the CPU runs are
skipped too), emits the warning, and still performs the wandb upload
exactly when that writer was requested. -/
theorem cpu_gpu_no_cuda_skips_all {α : Type} (hw wr : List String) (d : Nat) (rc : List α)
    (_hcpu : "cpu" ∈ hw) (hgpu : "gpu" ∈ hw) :
    distribute hw wr false d rc = some ⟨[], true, decide ("wandb" ∈ wr)⟩ ∧
    (decide ("wandb" ∈ wr) = true ↔ "wandb" ∈ wr) := by
  constructor
  · unfold distribute
    rw [if_pos ⟨rfl, hgpu⟩]
  · exact decide_eq_true_iff

/-- Claim C9, witness: a concrete two-target request without CUDA schedules
nothing, warns, and uploads because the wandb writer is present. -/
theorem cpu_gpu_no_cuda_skips_all_witness :
    distribute ["cpu", "gpu"] ["wandb"] false 2 ([5] : List Nat)
        = some ⟨[], true, true⟩ ∧
    ("wandb" ∈ ["wandb"]) := by
  obtain ⟨h1, h2⟩ :=
    cpu_gpu_no_cuda_skips_all ["cpu", "gpu"] ["wandb"] 2 ([5] : List Nat)
      (by decide) (by decide)
  exact ⟨h1, by decide⟩

/-- Claim C2, code-bug evidence: when the wrapped operation raises, the
process-wide sink after the scope exits is the capture buffer, not the sink
that was active before the scope was entered (the restoring assignment sits
after the `try` block and is skipped on the exception path); on normal
return the original sink is restored. -/
theorem hide_output_stdout_not_restored :
    (hide_output ["boom"] (Except.error 0) (StdoutSink.sink 0) :
        CaptureOutcome Nat Nat).finalStdout = StdoutSink.buffer ["boom"] ∧
    StdoutSink.buffer ["boom"] ≠ StdoutSink.sink 0 ∧
    (hide_output [] (Except.ok 1) (StdoutSink.sink 0) :
        CaptureOutcome Nat Nat).finalStdout = StdoutSink.sink 0 := by
  decide

/-- Claim C5: when the wrapped operation raises, `hide_output` re-raises a
new error chained from the original cause whose message is the full captured
buffer, and that message contains every line the operation emitted. -/
theorem hide_output_error_message {ε α : Type} (emitted : List String) (exp : ε)
    (std_out : StdoutSink) :
    ∃ w : WrappedError ε,
      (hide_output emitted (Except.error exp) std_out :
          CaptureOutcome ε α).result = Except.error w ∧
      w.message = emitted ∧ w.cause = exp ∧ ∀ line ∈ emitted, line ∈ w.message :=
  ⟨⟨emitted, exp⟩, rfl, rfl, rfl, fun _ h => h⟩

/-- Claim C5, witness: a concrete raising operation that emitted two lines
yields the wrapped error carrying both lines and the original cause. -/
theorem hide_output_error_message_witness :
    ∃ w : WrappedError Nat,
      (hide_output ["line one", "line two"] (Except.error 7) (StdoutSink.sink 0) :
          CaptureOutcome Nat Nat).result = Except.error w ∧
      w.message = ["line one", "line two"] ∧ w.cause = 7 ∧
      ∀ line ∈ ["line one", "line two"], line ∈ w.message :=
  hide_output_error_message ["line one", "line two"] 7 (StdoutSink.sink 0)

/-- Claim C6: jobs are awaited in launch order, so if every job launched
before a failing job succeeded, the await loop surfaces that job's error
wrapped with its identity, independently of any later job. -/
theorem gpu_job_error_launch_order {ε : Type} (front rest : List (Nat × Except ε Unit))
    (jid : Nat) (exp : ε) (h : ∀ job ∈ front, job.2 = Except.ok ()) :
    await_gpu_jobs (front ++ (jid, Except.error exp) :: rest) = Except.error (jid, exp) := by
  induction front with
  | nil => rfl
  | cons job tl ih =>
    obtain ⟨j, r⟩ := job
    have hj : r = Except.ok () := h (j, r) (List.mem_cons_self (j, r) tl)
    subst hj
    rw [List.cons_append]
    exact ih (fun jb hjb => h jb (List.mem_cons_of_mem (j, Except.ok ()) hjb))

/-- Claim C6, witness: with the first job succeeding and the second failing,
the await loop reports the second job's identity and cause, regardless of
the third job. -/
theorem gpu_job_error_launch_order_witness :
    await_gpu_jobs [((1 : Nat), Except.ok ()), (2, Except.error (7 : Nat)), (3, Except.ok ())]
        = Except.error (2, 7) :=
  gpu_job_error_launch_order [((1 : Nat), Except.ok ())] [(3, Except.ok ())] 2 7
    (by
      intro job hj
      rw [List.mem_singleton] at hj
      rw [hj])

/-- Claim C7: device id `0` sets the accelerator to `cpu`; a positive id `k`
sets it to `gpu` with device index `k - 1`; and in the dispatched
configuration every legacy device-selection key (`num_processes`, `gpus`,
`ipus`, `tpu_cores`) is either absent or null. -/
theorem device_encoding_legacy_cleared (env : SweepEnv) (rcfg : RunConfig) (device : Nat)
    (seed : Int) :
    (sweepConfig env rcfg device seed).trainer.accelerator
        = some (if device = 0 then "cpu" else "gpu") ∧
    (device ≠ 0 → (sweepConfig env rcfg device seed).trainer.devices = some [device - 1]) ∧
    (∀ nm ∈ legacyFlags,
      lookupExtra (sweepConfig env rcfg device seed).trainer.extra nm = none ∨
      lookupExtra (sweepConfig env rcfg device seed).trainer.extra nm = some none) := by
  refine ⟨?_, ?_, ?_⟩
  · by_cases hd : device = 0 <;> simp [sweepConfig, clearLegacy, hd]
  · intro hd
    simp [sweepConfig, clearLegacy, hd]
  · intro nm hnm
    by_cases hd : device = 0 <;>
      simp only [sweepConfig, clearLegacy, hd, if_pos, if_neg, ne_eq,
        not_true_eq_false, not_false_eq_true, if_true, if_false] <;>
      exact lookupExtra_foldl_setNull nm legacyFlags _ hnm

/-- Claim C7, witness: with identity collaborators and device id `1`, the
dispatched configuration has accelerator `gpu`, device index `0`, and the
`gpus` legacy key (present in the base configuration) cleared to null. -/
theorem device_encoding_legacy_cleared_witness :
    ((1 : Nat) ≠ 0) ∧
    (sweepConfig env0 rcA 1 0).trainer.accelerator = some "gpu" ∧
    (sweepConfig env0 rcA 1 0).trainer.devices = some [0] ∧
    (lookupExtra (sweepConfig env0 rcA 1 0).trainer.extra "gpus" = none ∨
     lookupExtra (sweepConfig env0 rcA 1 0).trainer.extra "gpus" = some none) := by
  have h := device_encoding_legacy_cleared env0 rcA 1 0
  refine ⟨by decide, ?_, h.2.1 (by decide), h.2.2 "gpus" (by decide)⟩
  have h1 := h.1
  exact h1

/-- Claim C4: for the fixed-resolution families `patchcore` and `cflow`,
export-throughput measurement is disabled regardless of the resolved
resolution even when requested, and a non-canonical resolved resolution
makes `sweep` return the empty record for every possible executor — the
executor (and hence the export step) is never invoked. -/
theorem fixed_resolution_guard (env : SweepEnv) (rcfg : RunConfig) (device : Nat) (seed : Int)
    (co : Bool) (hfam : rcfg.model_name ∈ fixedResolutionModels) :
    sweepOpenvino rcfg co = false ∧
    ((sweepConfig env rcfg device seed).inputSize ≠ (224, 224) →
      sweep env rcfg device seed co = []) := by
  constructor
  · unfold sweepOpenvino
    rw [if_pos hfam]
  · intro hres
    unfold sweep
    rw [if_pos ⟨hfam, hres⟩]

/-- Claim C4, witness: `patchcore` with OpenVINO requested has the flag
forced off, and with a `(256, 256)` resolution the record is empty. -/
theorem fixed_resolution_guard_witness :
    sweepOpenvino ⟨"patchcore", []⟩ true = false ∧
    sweep env1 ⟨"patchcore", []⟩ 0 42 true = [] := by
  have h := fixed_resolution_guard env1 ⟨"patchcore", []⟩ 0 42 true (by decide)
  exact ⟨h.1, h.2 (by decide)⟩

/-- Claim C8, counterexample: a RunConfig carrying a grid parameter
literally named `device` produces a non-empty record that does not contain
that grid value — the resolved device label overwrites it. -/
theorem metrics_payload_cex :
    sweep env0 rcDev 0 42 false ≠ [] ∧
    ("device", PVal.num 5) ∈ rcDev.params ∧
    dictGet (sweep env0 rcDev 0 42 false) "device" = some (PVal.str "cpu") ∧
    dictGet (sweep env0 rcDev 0 42 false) "device" ≠ some (PVal.num 5) := by
  decide

/-- Claim C8, amended: every non-empty record contains the resolved device
label (`gpu` exactly when the device id is positive, `cpu` when it is `0`)
under `device`, the RunConfig's model name recorded separately under
`model_name` (the grid loop excludes that key), and the RunConfig's own
grid values for every key other than `model_name` — except a grid key
literally named `device`, which is overwritten by the device label. -/
theorem metrics_record_contents (env : SweepEnv) (rcfg : RunConfig) (device : Nat)
    (seed : Int) (co : Bool) (hnd : (rcfg.params.map Prod.fst).Nodup) :
    sweep env rcfg device seed co = [] ∨
    (dictGet (sweep env rcfg device seed co) "device"
        = some (PVal.str (if device > 0 then "gpu" else "cpu")) ∧
     dictGet (sweep env rcfg device seed co) "model_name"
        = some (PVal.str rcfg.model_name) ∧
     ∀ k v, (k, v) ∈ rcfg.params → k ≠ "device" → k ≠ "model_name" →
       dictGet (sweep env rcfg device seed co) k = some v) := by
  by_cases hskip : rcfg.model_name ∈ fixedResolutionModels ∧
      (sweepConfig env rcfg device seed).inputSize ≠ (224, 224)
  · left
    unfold sweep
    rw [if_pos hskip]
  · right
    unfold sweep
    rw [if_neg hskip]
    refine ⟨?_, ?_, ?_⟩
    · rw [dictGet_dictSet_ne _ "model_name" "device" _ (by decide)]
      exact dictGet_dictSet_self _ _ _
    · exact dictGet_dictSet_self _ _ _
    · intro k v hkv hkd hkm
      rw [dictGet_dictSet_ne _ "model_name" k _ hkm]
      rw [dictGet_dictSet_ne _ "device" k _ hkd]
      rw [List.foldl_cons]
      have hgate : addGridParam
          (get_single_model_metrics (env.gsmData (sweepConfig env rcfg device seed))
            (sweepOpenvino rcfg co)) ("model_name", PVal.str rcfg.model_name)
          = get_single_model_metrics (env.gsmData (sweepConfig env rcfg device seed))
            (sweepOpenvino rcfg co) := by
        unfold addGridParam
        rw [if_pos rfl]
      rw [hgate]
      exact addGridParam_foldl_mem k v hkm rcfg.params _ hnd hkv

/-- Claim C8, witness for the amended theorem: a CPU run over an ordinary
grid parameter yields a record whose `device` entry is `cpu` and whose
`model.lr` entry is the grid value. -/
theorem metrics_record_contents_witness :
    dictGet (sweep env0 rcA 0 42 false) "device" = some (PVal.str "cpu") ∧
    dictGet (sweep env0 rcA 0 42 false) "model_name" = some (PVal.str "padim") ∧
    dictGet (sweep env0 rcA 0 42 false) "model.lr" = some (PVal.num 3) := by
  rcases metrics_record_contents env0 rcA 0 42 false (by decide) with h | h
  · exact absurd h (by decide)
  · exact ⟨h.1, h.2.1, h.2.2 "model.lr" (PVal.num 3) (by decide) (by decide) (by decide)⟩

/-- Claim C10: every record produced by the CPU lane is either the skip
record or carries the `nan` not-available sentinel in its exported-runtime
throughput field, because `compute_on_cpu` always invokes `sweep` with
OpenVINO measurement disabled (assuming no grid parameter or test metric is
itself named after the OpenVINO throughput key). -/
theorem cpu_lane_openvino_sentinel (env : SweepEnv) (rcs : List RunConfig) (seed : Int)
    (mm : List (String × PVal)) (hmm : mm ∈ compute_on_cpu env rcs seed)
    (hkeys : ∀ rcfg ∈ rcs, ovKey ∉ rcfg.params.map Prod.fst)
    (hgsm : ∀ mc, ovKey ∉ (env.gsmData mc).testResults.map Prod.fst) :
    mm = [] ∨ dictGet mm ovKey = some PVal.nan := by
  unfold compute_on_cpu at hmm
  rw [List.mem_map] at hmm
  obtain ⟨rcfg, hrc, rfl⟩ := hmm
  by_cases hskip : rcfg.model_name ∈ fixedResolutionModels ∧
      (sweepConfig env rcfg 0 seed).inputSize ≠ (224, 224)
  · left
    unfold sweep
    rw [if_pos hskip]
  · right
    unfold sweep
    rw [if_neg hskip]
    rw [dictGet_dictSet_ne _ "model_name" ovKey _ (by decide)]
    rw [dictGet_dictSet_ne _ "device" ovKey _ (by decide)]
    rw [List.foldl_cons]
    have hgate : addGridParam
        (get_single_model_metrics (env.gsmData (sweepConfig env rcfg 0 seed))
          (sweepOpenvino rcfg false)) ("model_name", PVal.str rcfg.model_name)
        = get_single_model_metrics (env.gsmData (sweepConfig env rcfg 0 seed))
          (sweepOpenvino rcfg false) := by
      unfold addGridParam
      rw [if_pos rfl]
    rw [hgate]
    have hparams : ∀ kv ∈ rcfg.params, kv.1 ≠ ovKey := by
      intro kv hkv hcon
      apply hkeys rcfg hrc
      have h7 : kv.1 ∈ rcfg.params.map Prod.fst := List.mem_map_of_mem Prod.fst hkv
      rw [hcon] at h7
      exact h7
    rw [addGridParam_foldl_not_mem rcfg.params _ ovKey hparams]
    have hco : sweepOpenvino rcfg false = false := by
      unfold sweepOpenvino
      by_cases hf : rcfg.model_name ∈ fixedResolutionModels
      · rw [if_pos hf]
      · rw [if_neg hf]
    unfold get_single_model_metrics
    have htr : ∀ kv ∈ (env.gsmData (sweepConfig env rcfg 0 seed)).testResults,
        kv.1 ≠ ovKey := by
      intro kv hkv hcon
      apply hgsm (sweepConfig env rcfg 0 seed)
      have h7 : kv.1 ∈ ((env.gsmData (sweepConfig env rcfg 0 seed)).testResults.map Prod.fst) :=
        List.mem_map_of_mem Prod.fst hkv
      rw [hcon] at h7
      exact h7
    rw [dictGet_foldl_dictSet_of_not_mem _ _ _ htr]
    rw [hco]
    rfl

/-- Claim C10, witness: the CPU lane over one ordinary run configuration
produces a record whose OpenVINO throughput entry is the `nan` sentinel. -/
theorem cpu_lane_openvino_sentinel_witness :
    sweep env0 rcA 0 7 false = [] ∨
    dictGet (sweep env0 rcA 0 7 false) ovKey = some PVal.nan := by
  have h := cpu_lane_openvino_sentinel env0 [rcA] 7 (sweep env0 rcA 0 7 false)
      (by simp [compute_on_cpu]) (by decide)
      (by
        intro mc
        show ovKey ∉ gd0.testResults.map Prod.fst
        decide)
  exact h
